import Mathlib

/-!
Shallow embedding of the Quoridor rules engine (board.py) and the parts of
the AI engine (ai.py) needed by the verified properties.

Conventions of the translation:
* Python tuples `(orientation, x, y)` for walls become `Orientation × Int × Int`.
* Python lists become Lean `List`s; `list.append` is `++ [a]`, `list.pop()`
  is `dropLast`/`getLast?`, `list.remove(a)` (first occurrence) is
  `removeFirst`.
* The two-element `players` list of `GameState` is modelled by two fields
  `p0`/`p1` with an indexing function `GameState.player`; the program only
  ever indexes with `0`, `1` and `1 - current_player`.
* The BFS of `has_path_to_goal` is written with an explicit fuel argument.
  Every cell entering the queue is simultaneously added to `visited` and is
  checked to be absent from `visited`, and every enqueued cell other than
  the start is on the 9×9 board; hence at most 82 cells are ever enqueued,
  the loop runs at most 82 iterations, and a fuel of 200 never runs out.
* `random.random() < 0.8` is modelled by a boolean oracle argument `coin`,
  and `random.choice(l)` by an index oracle `pick` used as `pick % l.length`,
  so theorems quantify over every outcome of the internal random choices.
-/

namespace Quoridor

inductive Orientation where
  | H
  | V
deriving DecidableEq

abbrev Wall := Orientation × Int × Int

abbrev Pos := Int × Int

structure Player where
  pos : Pos
  goal_row : Int
  walls_left : Int
deriving DecidableEq

structure GameState where
  p0 : Player
  p1 : Player
  walls : List Wall
  current_player : Nat
deriving DecidableEq

/-- `game_state.players[i]` for the indices `0`/`1` actually used by the code. -/
def GameState.player (gs : GameState) (i : Nat) : Player :=
  if i = 0 then gs.p0 else gs.p1

/-- `game_state.players[i].field = v` update. -/
def GameState.setPlayer (gs : GameState) (i : Nat) (p : Player) : GameState :=
  if i = 0 then { gs with p0 := p } else { gs with p1 := p }

/-- `GameState.__init__`: the fresh snapshot. -/
def GameState.init : GameState :=
  { p0 := { pos := (4, 0), goal_row := 8, walls_left := 10 }
    p1 := { pos := (4, 8), goal_row := 0, walls_left := 10 }
    walls := []
    current_player := 0 }

def BOARD_SIZE : Int := 9

/-- `is_on_board(x, y)`. -/
def is_on_board (x y : Int) : Bool :=
  decide (0 ≤ x ∧ x < BOARD_SIZE ∧ 0 ≤ y ∧ y < BOARD_SIZE)

/-- `wall_blocks_move(walls, from_pos, to_pos)`. -/
def wall_blocks_move (walls : List Wall) (from_pos to_pos : Pos) : Bool :=
  if from_pos.1 ≠ to_pos.1 then
    decide ((Orientation.V, min from_pos.1 to_pos.1, from_pos.2) ∈ walls ∨
      (from_pos.2 > 0 ∧
        (Orientation.V, min from_pos.1 to_pos.1, from_pos.2 - 1) ∈ walls))
  else if from_pos.2 ≠ to_pos.2 then
    decide ((Orientation.H, from_pos.1, min from_pos.2 to_pos.2) ∈ walls ∨
      (from_pos.1 > 0 ∧
        (Orientation.H, from_pos.1 - 1, min from_pos.2 to_pos.2) ∈ walls))
  else
    false

/-- The direction list `[(1,0), (-1,0), (0,1), (0,-1)]`. -/
def directions : List Pos := [(1, 0), (-1, 0), (0, 1), (0, -1)]

/-- The body of the `for dx, dy in directions` loop of `get_valid_moves`:
the moves contributed by one direction. -/
def moveCandidates (walls : List Wall) (p o : Pos) (d : Pos) : List Pos :=
  let n : Pos := (p.1 + d.1, p.2 + d.2)
  if ¬ is_on_board n.1 n.2 then []
  else if wall_blocks_move walls p n then []
  else if n ≠ o then [n]
  else
    let j : Pos := (o.1 + d.1, o.2 + d.2)
    if is_on_board j.1 j.2 ∧ ¬ wall_blocks_move walls o j then [j]
    else
      ([(o.1 + d.2, o.2 + d.1), (o.1 - d.2, o.2 - d.1)] : List Pos).filter
        fun s =>
          is_on_board s.1 s.2 ∧ ¬ wall_blocks_move walls o s ∧
            ¬ wall_blocks_move walls p s

/-- `get_valid_moves(game_state, player_index)`. -/
def get_valid_moves (gs : GameState) (player_index : Nat) : List Pos :=
  let p := gs.player player_index
  let opponent := gs.player (1 - player_index)
  directions.flatMap (moveCandidates gs.walls p.pos opponent.pos)

/-- One iteration of the BFS `while q` loop of `has_path_to_goal`:
visit the four neighbours of the dequeued cell `(x, y)`. -/
def bfsExpand (walls : List Wall) (c : Pos)
    (acc : List Pos × List Pos) : List Pos × List Pos :=
  directions.foldl
    (fun acc d =>
      let n : Pos := (c.1 + d.1, c.2 + d.2)
      if n ∈ acc.1 then acc
      else if ¬ is_on_board n.1 n.2 then acc
      else if wall_blocks_move walls c n then acc
      else (acc.1 ++ [n], acc.2 ++ [n]))
    acc

/-- The BFS loop of `has_path_to_goal`, with explicit fuel (see the header
comment: 200 units of fuel are more than the loop can ever consume). -/
def bfsLoop (walls : List Wall) (goal_row : Int) :
    Nat → List Pos → List Pos → Bool
  | 0, _, _ => false
  | fuel + 1, visited, queue =>
    match queue with
    | [] => false
    | c :: rest =>
      if c.2 = goal_row then true
      else
        let next := bfsExpand walls c (visited, rest)
        bfsLoop walls goal_row fuel next.1 next.2

/-- `has_path_to_goal(game_state, player)`: BFS from the player's position
to its goal row over the wall-pruned grid. -/
def has_path_to_goal (gs : GameState) (player : Player) : Bool :=
  bfsLoop gs.walls player.goal_row 200 [player.pos] [player.pos]

/-- Python `list.remove(a)`: drop the first occurrence of `a`
(the code only ever removes an element it has just appended). -/
def removeFirst (l : List Wall) (a : Wall) : List Wall :=
  match l with
  | [] => []
  | b :: t => if b = a then t else b :: removeFirst t a

/-- `is_valid_wall_placement(game_state, x, y, orientation)`.  The Python
function tentatively mutates `game_state.walls` and reverts the mutation, so
the embedding returns the pair (result, state of `game_state` on return). -/
def is_valid_wall_placement (gs : GameState) (x y : Int) (o : Orientation) :
    Bool × GameState :=
  if x < 0 ∨ y < 0 ∨ x ≥ BOARD_SIZE - 1 ∨ y ≥ BOARD_SIZE - 1 then (false, gs)
  else
    let wall : Wall := (o, x, y)
    if wall ∈ gs.walls then (false, gs)
    else
      let crossed : Bool :=
        if o = Orientation.H then
          decide ((Orientation.H, x + 1, y) ∈ gs.walls) ||
            decide ((Orientation.H, x - 1, y) ∈ gs.walls)
        else
          decide ((Orientation.V, x, y + 1) ∈ gs.walls) ||
            decide ((Orientation.V, x, y - 1) ∈ gs.walls)
      if crossed then (false, gs)
      else
        let gsT := { gs with walls := gs.walls ++ [wall] }
        let ok := has_path_to_goal gsT gsT.p0 && has_path_to_goal gsT gsT.p1
        (ok, { gsT with walls := removeFirst gsT.walls wall })

/-- `make_move(game_state, new_pos)`: result and state after the call. -/
def make_move (gs : GameState) (new_pos : Pos) : Bool × GameState :=
  let moves := get_valid_moves gs gs.current_player
  if new_pos ∈ moves then
    let cur := gs.current_player
    let gs1 := gs.setPlayer cur { gs.player cur with pos := new_pos }
    (true, { gs1 with current_player := 1 - cur })
  else
    (false, gs)

/-- Module-level `place_wall(game_state, x, y, orientation)`:
result and state after the call. -/
def place_wall (gs : GameState) (x y : Int) (o : Orientation) :
    Bool × GameState :=
  let p := gs.player gs.current_player
  if p.walls_left ≤ 0 then (false, gs)
  else
    let checked := is_valid_wall_placement gs x y o
    if checked.1 then
      let gs1 := checked.2
      let gs2 := { gs1 with walls := gs1.walls ++ [(o, x, y)] }
      let cur := gs2.current_player
      let gs3 := gs2.setPlayer cur
        { gs2.player cur with walls_left := (gs2.player cur).walls_left - 1 }
      (true, { gs3 with current_player := 1 - cur })
    else
      (false, checked.2)

structure History where
  undo_stack : List GameState
  redo_stack : List GameState
deriving DecidableEq

/-- `History.push(game_state)`: snapshot and clear the redo history. -/
def History.push (h : History) (gs : GameState) : History :=
  { undo_stack := h.undo_stack ++ [gs], redo_stack := [] }

/-- `History.undo(game_state)`: returns the popped snapshot (or `none`)
and the stacks after the call. -/
def History.undo (h : History) (cur : GameState) : Option GameState × History :=
  match h.undo_stack.getLast? with
  | none => (none, h)
  | some s =>
    (some s,
      { undo_stack := h.undo_stack.dropLast
        redo_stack := h.redo_stack ++ [cur] })

/-- `History.redo(game_state)`. -/
def History.redo (h : History) (cur : GameState) : Option GameState × History :=
  match h.redo_stack.getLast? with
  | none => (none, h)
  | some s =>
    (some s,
      { undo_stack := h.undo_stack ++ [cur]
        redo_stack := h.redo_stack.dropLast })

structure Game where
  state : GameState
  history : History
  winner : Option Nat
deriving DecidableEq

/-- `Game.__init__` / `Game.reset`. -/
def Game.init : Game :=
  { state := GameState.init, history := { undo_stack := [], redo_stack := [] }
    winner := none }

/-- `Game._check_winner`: the first player standing on its goal row becomes
the winner; otherwise `self.winner` keeps its current value `w`. -/
def check_winner (gs : GameState) (w : Option Nat) : Option Nat :=
  if gs.p0.pos.2 = gs.p0.goal_row then some 0
  else if gs.p1.pos.2 = gs.p1.goal_row then some 1
  else w

/-- `Game.move_pawn(new_pos)`: result and game after the call. -/
def Game.move_pawn (g : Game) (new_pos : Pos) : Bool × Game :=
  match g.winner with
  | some _ => (false, g)
  | none =>
    let h1 := g.history.push g.state
    let attempt := make_move g.state new_pos
    if attempt.1 then
      (true,
        { state := attempt.2, history := h1
          winner := check_winner attempt.2 g.winner })
    else
      (false,
        { state := attempt.2
          history := { h1 with undo_stack := h1.undo_stack.dropLast }
          winner := g.winner })

/-- `Game.place_wall(x, y, orientation)`: result and game after the call. -/
def Game.place_wall (g : Game) (x y : Int) (o : Orientation) : Bool × Game :=
  match g.winner with
  | some _ => (false, g)
  | none =>
    let h1 := g.history.push g.state
    let attempt := Quoridor.place_wall g.state x y o
    if attempt.1 then
      (true, { state := attempt.2, history := h1, winner := g.winner })
    else
      (false,
        { state := attempt.2
          history := { h1 with undo_stack := h1.undo_stack.dropLast }
          winner := g.winner })

/-- `Game.undo()`: result and game after the call; a successful undo clears
the winner. -/
def Game.undo (g : Game) : Bool × Game :=
  let r := g.history.undo g.state
  match r.1 with
  | some s => (true, { state := s, history := r.2, winner := none })
  | none => (false, { g with history := r.2 })

/-- `Game.redo()`: result and game after the call; a successful redo
re-derives the winner. -/
def Game.redo (g : Game) : Bool × Game :=
  let r := g.history.redo g.state
  match r.1 with
  | some s =>
    (true, { state := s, history := r.2, winner := check_winner s g.winner })
  | none => (false, { g with history := r.2 })

/-- Moves returned by `QuoridorAI.get_move`: `("pawn", (x, y))` or
`("wall", (x, y, orientation))`. -/
inductive AIMove where
  | pawn (p : Pos)
  | wall (w : Int × Int × Orientation)
deriving DecidableEq

/-- `get_all_valid_wall_placements(game_state, player_index)` from ai.py. -/
def get_all_valid_wall_placements (gs : GameState) (player_index : Nat) :
    List (Int × Int × Orientation) :=
  if (gs.player player_index).walls_left ≤ 0 then []
  else
    (List.range 8).flatMap fun x =>
      (List.range 8).flatMap fun y =>
        ([Orientation.H, Orientation.V]).filterMap fun o =>
          if (is_valid_wall_placement gs (x : Int) (y : Int) o).1 then
            some ((x : Int), (y : Int), o)
          else none

/-- The `best_moves` loop of `_easy_strategy`: the valid moves that strictly
reduce the row distance `abs(y - goal_row)` to the goal. -/
def easy_best_moves (gs : GameState) (player_index : Nat) : List Pos :=
  (get_valid_moves gs player_index).filter fun m =>
    (m.2 - (gs.player player_index).goal_row).natAbs <
      ((gs.player player_index).pos.2 - (gs.player player_index).goal_row).natAbs

/-- `QuoridorAI._easy_strategy(game_state)` for an AI with index
`player_index`.  `coin` is the outcome of `random.random() < 0.8`; `pick`
selects the element `random.choice` returns (taken modulo the list length;
each execution path of the Python code performs at most one choice). -/
def easy_strategy (gs : GameState) (player_index : Nat) (coin : Bool)
    (pick : Nat) : Option AIMove :=
  let player := gs.player player_index
  if coin || player.walls_left == 0 then
    let valid_moves := get_valid_moves gs player_index
    if valid_moves.isEmpty then none
    else
      let best_moves := easy_best_moves gs player_index
      let best_moves := if best_moves.isEmpty then valid_moves else best_moves
      some (AIMove.pawn (best_moves.getD (pick % best_moves.length) (0, 0)))
  else
    let valid_walls := get_all_valid_wall_placements gs player_index
    if valid_walls.isEmpty then
      let valid_moves := get_valid_moves gs player_index
      if valid_moves.isEmpty then none
      else some (AIMove.pawn (valid_moves.getD (pick % valid_moves.length) (0, 0)))
    else
      some (AIMove.wall
        (valid_walls.getD (pick % valid_walls.length) (0, 0, Orientation.H)))

/-! ### Basic lemmas about the embedding -/

lemma removeFirst_append_self (l : List Wall) (a : Wall) (h : a ∉ l) :
    removeFirst (l ++ [a]) a = l := by
  induction l with
  | nil => simp [removeFirst]
  | cons b t ih =>
    rw [List.mem_cons, not_or] at h
    simp only [List.cons_append, removeFirst, List.append_eq]
    rw [if_neg (fun hba => h.1 hba.symm), ih h.2]

/-- The wall-legality probe reverts its tentative mutation on every path. -/
lemma is_valid_wall_placement_state (gs : GameState) (x y : Int)
    (o : Orientation) : (is_valid_wall_placement gs x y o).2 = gs := by
  unfold is_valid_wall_placement
  split
  · rfl
  next =>
  by_cases h2 : ((o, x, y) : Wall) ∈ gs.walls
  · simp only [h2, if_pos]
  · simp only [h2, if_neg, not_false_iff]
    split <;> split <;>
      first
      | rfl
      | rw [removeFirst_append_self _ _ h2]

/-- A wall set on the (N-1)×(N-1) slot grid of the data model: every anchor
coordinate lies between 0 and 7. -/
def wallsOnSlotGrid (walls : List Wall) : Prop :=
  ∀ w ∈ walls, 0 ≤ w.2.1 ∧ w.2.1 ≤ 7 ∧ 0 ≤ w.2.2 ∧ w.2.2 ≤ 7

lemma setPlayer_p0 (gs : GameState) (i : Nat) (p : Player) :
    (gs.setPlayer i p).p0 = if i = 0 then p else gs.p0 := by
  unfold GameState.setPlayer; split <;> rfl

lemma setPlayer_p1 (gs : GameState) (i : Nat) (p : Player) :
    (gs.setPlayer i p).p1 = if i = 0 then gs.p1 else p := by
  unfold GameState.setPlayer; split <;> rfl

lemma setPlayer_walls (gs : GameState) (i : Nat) (p : Player) :
    (gs.setPlayer i p).walls = gs.walls := by
  unfold GameState.setPlayer; split <;> rfl

lemma setPlayer_current_player (gs : GameState) (i : Nat) (p : Player) :
    (gs.setPlayer i p).current_player = gs.current_player := by
  unfold GameState.setPlayer; split <;> rfl

lemma make_move_of_mem (gs : GameState) (pos : Pos)
    (h : pos ∈ get_valid_moves gs gs.current_player) :
    make_move gs pos =
      (true,
        { gs.setPlayer gs.current_player
            { gs.player gs.current_player with pos := pos } with
          current_player := 1 - gs.current_player }) := by
  unfold make_move
  rw [if_pos h]

lemma make_move_of_not_mem (gs : GameState) (pos : Pos)
    (h : pos ∉ get_valid_moves gs gs.current_player) :
    make_move gs pos = (false, gs) := by
  unfold make_move
  rw [if_neg h]

/-- A successful legality probe means: the candidate wall was not already
present and both players still reach their goals with it appended. -/
lemma is_valid_wall_placement_true (gs : GameState) (x y : Int)
    (o : Orientation) (h : (is_valid_wall_placement gs x y o).1 = true) :
    ((o, x, y) : Wall) ∉ gs.walls ∧
    has_path_to_goal { gs with walls := gs.walls ++ [(o, x, y)] } gs.p0 = true ∧
    has_path_to_goal { gs with walls := gs.walls ++ [(o, x, y)] } gs.p1 = true := by
  unfold is_valid_wall_placement at h
  split at h
  · simp at h
  by_cases h2 : ((o, x, y) : Wall) ∈ gs.walls
  · simp [h2] at h
  · simp only [h2, if_neg, not_false_iff] at h
    split at h <;> split at h <;> simp_all

lemma place_wall_true_fields (gs : GameState) (x y : Int) (o : Orientation) :
    (place_wall gs x y o).1 = true →
    (place_wall gs x y o).2.walls = gs.walls ++ [(o, x, y)] ∧
    (place_wall gs x y o).2.current_player = 1 - gs.current_player ∧
    (place_wall gs x y o).2.p0.pos = gs.p0.pos ∧
    (place_wall gs x y o).2.p0.goal_row = gs.p0.goal_row ∧
    (place_wall gs x y o).2.p1.pos = gs.p1.pos ∧
    (place_wall gs x y o).2.p1.goal_row = gs.p1.goal_row ∧
    (place_wall gs x y o).2.p0.walls_left =
      gs.p0.walls_left - (if gs.current_player = 0 then 1 else 0) ∧
    (place_wall gs x y o).2.p1.walls_left =
      gs.p1.walls_left - (if gs.current_player = 0 then 0 else 1) ∧
    (is_valid_wall_placement gs x y o).1 = true := by
  unfold place_wall
  dsimp only
  split
  · intro h
    simp at h
  next hleft =>
  split
  · next hv =>
    intro _
    rw [is_valid_wall_placement_state]
    refine ⟨?_, ?_, ?_, ?_, ?_, ?_, ?_, ?_, hv⟩ <;>
      by_cases hc : gs.current_player = 0 <;>
        simp [GameState.setPlayer, GameState.player, hc]
  · intro h
    simp at h

lemma place_wall_false_state (gs : GameState) (x y : Int) (o : Orientation) :
    (place_wall gs x y o).1 = false → (place_wall gs x y o).2 = gs := by
  unfold place_wall
  dsimp only
  split
  · intro _
    rfl
  · split
    · intro h
      simp at h
    · intro _
      exact is_valid_wall_placement_state gs x y o

lemma game_place_wall_true (g : Game) (x y : Int) (o : Orientation)
    (h : (Game.place_wall g x y o).1 = true) :
    g.winner = none ∧ (place_wall g.state x y o).1 = true ∧
    (Game.place_wall g x y o).2 =
      { state := (place_wall g.state x y o).2
        history :=
          { undo_stack := g.history.undo_stack ++ [g.state], redo_stack := [] }
        winner := none } := by
  unfold Game.place_wall at *
  cases hw : g.winner with
  | some w =>
    rw [hw] at h
    simp at h
  | none =>
    rw [hw] at h
    dsimp only [History.push] at h ⊢
    split at h
    next hs =>
      rw [if_pos hs]
      exact ⟨rfl, hs, rfl⟩
    next hs =>
      simp at h

lemma game_place_wall_false (g : Game) (x y : Int) (o : Orientation)
    (hw : g.winner = none) (h : (Game.place_wall g x y o).1 = false) :
    (Game.place_wall g x y o).2 =
      { state := g.state
        history := { undo_stack := g.history.undo_stack, redo_stack := [] }
        winner := none } := by
  unfold Game.place_wall at *
  rw [hw] at h ⊢
  dsimp only [History.push] at h ⊢
  split at h
  · simp at h
  next hs =>
  rw [if_neg hs]
  rw [Bool.not_eq_true] at hs
  rw [place_wall_false_state g.state x y o hs, List.dropLast_concat]

lemma game_place_wall_over (g : Game) (x y : Int) (o : Orientation) (w : Nat)
    (hw : g.winner = some w) : Game.place_wall g x y o = (false, g) := by
  unfold Game.place_wall
  rw [hw]

lemma game_move_pawn_true (g : Game) (pos : Pos)
    (h : (Game.move_pawn g pos).1 = true) :
    g.winner = none ∧ (make_move g.state pos).1 = true ∧
    (Game.move_pawn g pos).2 =
      { state := (make_move g.state pos).2
        history :=
          { undo_stack := g.history.undo_stack ++ [g.state], redo_stack := [] }
        winner := check_winner (make_move g.state pos).2 none } := by
  unfold Game.move_pawn at *
  cases hw : g.winner with
  | some w =>
    rw [hw] at h
    simp at h
  | none =>
    rw [hw] at h
    dsimp only [History.push] at h ⊢
    split at h
    next hs =>
      rw [if_pos hs]
      exact ⟨rfl, hs, rfl⟩
    next hs =>
      simp at h

lemma game_move_pawn_false (g : Game) (pos : Pos)
    (hw : g.winner = none) (h : (Game.move_pawn g pos).1 = false) :
    (Game.move_pawn g pos).2 =
      { state := g.state
        history := { undo_stack := g.history.undo_stack, redo_stack := [] }
        winner := none } ∧
    pos ∉ get_valid_moves g.state g.state.current_player := by
  unfold Game.move_pawn at *
  rw [hw] at h ⊢
  dsimp only [History.push] at h ⊢
  by_cases hm : pos ∈ get_valid_moves g.state g.state.current_player
  · rw [make_move_of_mem _ _ hm] at h
    simp at h
  · rw [make_move_of_not_mem _ _ hm] at h ⊢
    dsimp only at h ⊢
    rw [if_neg (by simp)]
    rw [List.dropLast_concat]
    exact ⟨rfl, hm⟩

lemma game_move_pawn_over (g : Game) (pos : Pos) (w : Nat)
    (hw : g.winner = some w) : Game.move_pawn g pos = (false, g) := by
  unfold Game.move_pawn
  rw [hw]

lemma game_undo_concat (g : Game) (u : List GameState) (s : GameState)
    (h : g.history.undo_stack = u ++ [s]) :
    Game.undo g =
      (true,
        { state := s
          history :=
            { undo_stack := u
              redo_stack := g.history.redo_stack ++ [g.state] }
          winner := none }) := by
  unfold Game.undo History.undo
  rw [h, List.getLast?_concat, List.dropLast_concat]

lemma game_undo_empty (g : Game) (h : g.history.undo_stack = []) :
    Game.undo g = (false, g) := by
  unfold Game.undo History.undo
  rw [h]
  rfl

lemma game_redo_concat (g : Game) (r : List GameState) (s : GameState)
    (h : g.history.redo_stack = r ++ [s]) :
    Game.redo g =
      (true,
        { state := s
          history :=
            { undo_stack := g.history.undo_stack ++ [g.state]
              redo_stack := r }
          winner := check_winner s g.winner }) := by
  unfold Game.redo History.redo
  rw [h, List.getLast?_concat, List.dropLast_concat]

lemma game_redo_empty (g : Game) (h : g.history.redo_stack = []) :
    Game.redo g = (false, g) := by
  unfold Game.redo History.redo
  rw [h]
  rfl

/-! ### Claim theorems -/

/-- C1: after any accepted `Game.place_wall`, both players still have a path
to their goal row in the resulting state: the wall set always leaves at
least one path from each player's current position to its goal row. -/
theorem claim_C1 (g : Game) (x y : Int) (o : Orientation)
    (h : (Game.place_wall g x y o).1 = true) :
    has_path_to_goal (Game.place_wall g x y o).2.state
      (Game.place_wall g x y o).2.state.p0 = true ∧
    has_path_to_goal (Game.place_wall g x y o).2.state
      (Game.place_wall g x y o).2.state.p1 = true := by
  obtain ⟨hw, hs, hshape⟩ := game_place_wall_true g x y o h
  obtain ⟨hwalls, hcur, hp0pos, hp0goal, hp1pos, hp1goal, hp0w, hp1w, hv⟩ :=
    place_wall_true_fields g.state x y o hs
  obtain ⟨hmem, hpath0, hpath1⟩ := is_valid_wall_placement_true g.state x y o hv
  rw [hshape]
  unfold has_path_to_goal at *
  dsimp only at hpath0 hpath1 ⊢
  rw [hwalls, hp0goal, hp0pos, hp1goal, hp1pos]
  exact ⟨hpath0, hpath1⟩

/-- A game a few moves from the end, used to instantiate the theorems about
accepted operations on concrete inputs. -/
def gW : Game :=
  { state :=
      { p0 := { pos := (4, 7), goal_row := 8, walls_left := 10 }
        p1 := { pos := (4, 1), goal_row := 0, walls_left := 10 }
        walls := []
        current_player := 0 }
    history := { undo_stack := [], redo_stack := [] }
    winner := none }

/-- Witness for C1: the accepted wall at slot `(0, 0)` leaves player 0 a
path to its goal row. -/
theorem claim_C1_witness :
    (Game.place_wall gW 0 0 Orientation.H).1 = true ∧
    has_path_to_goal (Game.place_wall gW 0 0 Orientation.H).2.state
      (Game.place_wall gW 0 0 Orientation.H).2.state.p0 = true := by
  refine ⟨by decide, (claim_C1 gW 0 0 Orientation.H (by decide)).1⟩

/-- C6: an accepted `move_pawn` followed by `undo` restores the full
pre-move snapshot (positions, wall set, wall counts and turn), and a `redo`
immediately after that undo restores exactly the post-move state including
the re-derived winner. -/
theorem claim_C6 (g : Game) (pos : Pos)
    (h : (Game.move_pawn g pos).1 = true) :
    (Game.undo (Game.move_pawn g pos).2).1 = true ∧
    (Game.undo (Game.move_pawn g pos).2).2.state = g.state ∧
    (Game.redo (Game.undo (Game.move_pawn g pos).2).2).1 = true ∧
    (Game.redo (Game.undo (Game.move_pawn g pos).2).2).2.state =
      (Game.move_pawn g pos).2.state ∧
    (Game.redo (Game.undo (Game.move_pawn g pos).2).2).2.winner =
      (Game.move_pawn g pos).2.winner := by
  obtain ⟨hw, hmk, hshape⟩ := game_move_pawn_true g pos h
  have hstate1 : (Game.move_pawn g pos).2.state = (make_move g.state pos).2 := by
    rw [hshape]
  have hredo1 : (Game.move_pawn g pos).2.history.redo_stack = [] := by
    rw [hshape]
  have hwin1 : (Game.move_pawn g pos).2.winner =
      check_winner (make_move g.state pos).2 none := by
    rw [hshape]
  have hu := game_undo_concat (Game.move_pawn g pos).2 g.history.undo_stack
    g.state (by rw [hshape])
  rw [hredo1, hstate1] at hu
  have hwin2 : (Game.undo (Game.move_pawn g pos).2).2.winner = none := by
    rw [hu]
  have hr := game_redo_concat (Game.undo (Game.move_pawn g pos).2).2 []
    (make_move g.state pos).2 (by rw [hu])
  rw [hwin2] at hr
  refine ⟨by rw [hu], by rw [hu], by rw [hr], ?_, ?_⟩
  · rw [hr, hstate1]
  · rw [hr, hwin1]

/-- Witness for C6: a concrete accepted move from the initial position,
undone and redone. -/
theorem claim_C6_witness :
    (Game.undo (Game.move_pawn Game.init (4, 1)).2).1 = true ∧
    (Game.undo (Game.move_pawn Game.init (4, 1)).2).2.state = Game.init.state ∧
    (Game.redo (Game.undo (Game.move_pawn Game.init (4, 1)).2).2).2.state =
      (Game.move_pawn Game.init (4, 1)).2.state := by
  have h := claim_C6 Game.init (4, 1) (by decide)
  exact ⟨h.1, h.2.1, h.2.2.2.1⟩

/-- C7: every rejected request leaves the authoritative state unchanged:
a failed `move_pawn` or `place_wall` preserves the board state and the
winner, and a failed `undo`/`redo` (empty stack) leaves the whole game
untouched.  All four operations are total functions returning a boolean. -/
theorem claim_C7 :
    (∀ (g : Game) (pos : Pos), (Game.move_pawn g pos).1 = false →
      (Game.move_pawn g pos).2.state = g.state ∧
      (Game.move_pawn g pos).2.winner = g.winner) ∧
    (∀ (g : Game) (x y : Int) (o : Orientation),
      (Game.place_wall g x y o).1 = false →
      (Game.place_wall g x y o).2.state = g.state ∧
      (Game.place_wall g x y o).2.winner = g.winner) ∧
    (∀ g : Game, (Game.undo g).1 = false → (Game.undo g).2 = g) ∧
    (∀ g : Game, (Game.redo g).1 = false → (Game.redo g).2 = g) := by
  refine ⟨?_, ?_, ?_, ?_⟩
  · intro g pos h
    cases hw : g.winner with
    | some w =>
      rw [game_move_pawn_over g pos w hw]
      exact ⟨rfl, hw⟩
    | none =>
      obtain ⟨hshape, -⟩ := game_move_pawn_false g pos hw h
      rw [hshape]
      exact ⟨rfl, rfl⟩
  · intro g x y o h
    cases hw : g.winner with
    | some w =>
      rw [game_place_wall_over g x y o w hw]
      exact ⟨rfl, hw⟩
    | none =>
      rw [game_place_wall_false g x y o hw h]
      exact ⟨rfl, rfl⟩
  · intro g h
    cases hl : g.history.undo_stack with
    | nil =>
      rw [game_undo_empty g hl]
    | cons a t =>
      exfalso
      have hconcat : g.history.undo_stack =
          (a :: t).dropLast ++ [(a :: t).getLast (by simp)] := by
        rw [List.dropLast_concat_getLast, hl]
      rw [game_undo_concat g _ _ hconcat] at h
      simp at h
  · intro g h
    cases hl : g.history.redo_stack with
    | nil =>
      rw [game_redo_empty g hl]
    | cons a t =>
      exfalso
      have hconcat : g.history.redo_stack =
          (a :: t).dropLast ++ [(a :: t).getLast (by simp)] := by
        rw [List.dropLast_concat_getLast, hl]
      rw [game_redo_concat g _ _ hconcat] at h
      simp at h

/-- Witness for C7: a rejected pawn move on the initial game leaves the
board state unchanged. -/
theorem claim_C7_witness :
    (Game.move_pawn Game.init (0, 0)).1 = false ∧
    (Game.move_pawn Game.init (0, 0)).2.state = Game.init.state :=
  ⟨by decide, (claim_C7.1 Game.init (0, 0) (by decide)).1⟩

/-- C10: a rejected `move_pawn` or `place_wall` attempt made while the game
is not over still clears the redo stack (the snapshot push runs before
validation and only the undo-stack entry is popped on failure), while the
board state and undo stack are unchanged. -/
theorem claim_C10 :
    (∀ (g : Game) (pos : Pos), g.winner = none →
      (Game.move_pawn g pos).1 = false →
      (Game.move_pawn g pos).2.history.redo_stack = [] ∧
      (Game.move_pawn g pos).2.history.undo_stack = g.history.undo_stack ∧
      (Game.move_pawn g pos).2.state = g.state) ∧
    (∀ (g : Game) (x y : Int) (o : Orientation), g.winner = none →
      (Game.place_wall g x y o).1 = false →
      (Game.place_wall g x y o).2.history.redo_stack = [] ∧
      (Game.place_wall g x y o).2.history.undo_stack = g.history.undo_stack ∧
      (Game.place_wall g x y o).2.state = g.state) := by
  constructor
  · intro g pos hw h
    obtain ⟨hshape, -⟩ := game_move_pawn_false g pos hw h
    rw [hshape]
    exact ⟨rfl, rfl, rfl⟩
  · intro g x y o hw h
    rw [game_place_wall_false g x y o hw h]
    exact ⟨rfl, rfl, rfl⟩

/-- The game after one accepted move and one undo: its redo stack is
non-empty. -/
def gU : Game := (Game.undo (Game.move_pawn Game.init (4, 1)).2).2

/-- Witness for C10: on a game with pending redo history, a rejected pawn
move destroys the redo stack. -/
theorem claim_C10_witness :
    gU.history.redo_stack ≠ [] ∧
    (Game.move_pawn gU (8, 8)).1 = false ∧
    (Game.move_pawn gU (8, 8)).2.history.redo_stack = [] := by
  refine ⟨by decide, by decide, (claim_C10.1 gU (8, 8) (by decide) (by decide)).1⟩

/-- C5: for every state and candidate wall, the state after
`is_valid_wall_placement` returns is identical to the state before the call
(the tentatively appended wall is always removed again), whether the result
is `true` or `false`. -/
theorem claim_C5 (gs : GameState) (x y : Int) (o : Orientation) :
    (is_valid_wall_placement gs x y o).2 = gs :=
  is_valid_wall_placement_state gs x y o

/-- C4: over wall sets whose anchors lie on the slot grid, a wall blocks both
unit edges it covers: the horizontal step between columns `x` and `x+1` at
row `y` is blocked iff a V wall is anchored at `(x, y)` or `(x, y-1)`, and
the vertical step between rows `y` and `y+1` at column `x` is blocked iff an
H wall is anchored at `(x, y)` or `(x-1, y)` (in both traversal
directions). -/
theorem claim_C4 (walls : List Wall) (hw : wallsOnSlotGrid walls) (x y : Int) :
    (wall_blocks_move walls (x, y) (x + 1, y) = true ↔
      ((Orientation.V, x, y) ∈ walls ∨ (Orientation.V, x, y - 1) ∈ walls)) ∧
    (wall_blocks_move walls (x + 1, y) (x, y) = true ↔
      ((Orientation.V, x, y) ∈ walls ∨ (Orientation.V, x, y - 1) ∈ walls)) ∧
    (wall_blocks_move walls (x, y) (x, y + 1) = true ↔
      ((Orientation.H, x, y) ∈ walls ∨ (Orientation.H, x - 1, y) ∈ walls)) ∧
    (wall_blocks_move walls (x, y + 1) (x, y) = true ↔
      ((Orientation.H, x, y) ∈ walls ∨ (Orientation.H, x - 1, y) ∈ walls)) := by
  have hV : (Orientation.V, x, y - 1) ∈ walls → 0 < y := fun hm => by
    have h : (0 : Int) ≤ y - 1 := (hw _ hm).2.2.1
    omega
  have hH : (Orientation.H, x - 1, y) ∈ walls → 0 < x := fun hm => by
    have h : (0 : Int) ≤ x - 1 := (hw _ hm).1
    omega
  refine ⟨?_, ?_, ?_, ?_⟩
  · unfold wall_blocks_move
    rw [if_pos (by simp)]
    simp only [min_eq_left (by omega : x ≤ x + 1), decide_eq_true_eq]
    constructor
    · rintro (h | ⟨-, h⟩)
      · exact Or.inl h
      · exact Or.inr h
    · rintro (h | h)
      · exact Or.inl h
      · exact Or.inr ⟨hV h, h⟩
  · unfold wall_blocks_move
    rw [if_pos (by simp)]
    simp only [min_eq_right (by omega : x ≤ x + 1), decide_eq_true_eq]
    constructor
    · rintro (h | ⟨-, h⟩)
      · exact Or.inl h
      · exact Or.inr h
    · rintro (h | h)
      · exact Or.inl h
      · exact Or.inr ⟨hV h, h⟩
  · unfold wall_blocks_move
    rw [if_neg (by simp), if_pos (by simp)]
    simp only [min_eq_left (by omega : y ≤ y + 1), decide_eq_true_eq]
    constructor
    · rintro (h | ⟨-, h⟩)
      · exact Or.inl h
      · exact Or.inr h
    · rintro (h | h)
      · exact Or.inl h
      · exact Or.inr ⟨hH h, h⟩
  · unfold wall_blocks_move
    rw [if_neg (by simp), if_pos (by simp)]
    simp only [min_eq_right (by omega : y ≤ y + 1), decide_eq_true_eq]
    constructor
    · rintro (h | ⟨-, h⟩)
      · exact Or.inl h
      · exact Or.inr h
    · rintro (h | h)
      · exact Or.inl h
      · exact Or.inr ⟨hH h, h⟩

/-- Witness for C4: a V wall anchored at `(2, 3)` blocks the horizontal step
at row 4 (the second edge it covers), by the theorem. -/
theorem claim_C4_witness :
    wall_blocks_move [(Orientation.V, 2, 3)] (2, 4) (3, 4) = true :=
  ((claim_C4 [(Orientation.V, 2, 3)] (by unfold wallsOnSlotGrid; decide) 2 4).1).mpr (Or.inr (by decide))

/-- A state with an H wall already placed at slot `(3, 3)`, both players
holding walls and both with a path to their goal. -/
def gsC2 : GameState :=
  { p0 := { pos := (4, 7), goal_row := 8, walls_left := 10 }
    p1 := { pos := (4, 1), goal_row := 0, walls_left := 10 }
    walls := [(Orientation.H, 3, 3)]
    current_player := 0 }

/-- Counterexample to C2: with an H wall at slot `(3, 3)` the claim says a
crossing V wall at `(3, 4)` must be rejected, but `is_valid_wall_placement`
accepts it (the code checks only same-orientation walls in the adjacent
slots along the wall's axis and has no cross-orientation check at all). -/
theorem claim_C2_counterexample :
    (Orientation.H, 3, 3) ∈ gsC2.walls ∧
    0 < gsC2.p0.walls_left ∧ 0 < gsC2.p1.walls_left ∧
    has_path_to_goal gsC2 gsC2.p0 = true ∧
    has_path_to_goal gsC2 gsC2.p1 = true ∧
    (is_valid_wall_placement gsC2 3 4 Orientation.V).1 = true := by
  decide

/-- C2 (amended): an H wall at slot `(x, y)` is rejected when a same-
orientation wall occupies the adjacent slot along its axis (`(x+1, y)` or
`(x-1, y)`), and a V wall likewise for `(x, y+1)`/`(x, y-1)`; on the
fixture state with an H wall at `(3, 3)`, an H wall at `(4, 3)` is rejected
and an H wall at `(3, 5)` is accepted — but the V wall at `(3, 4)` is
accepted as well, because no cross-orientation crossing check exists. -/
theorem claim_C2_amended :
    (∀ (gs : GameState) (x y : Int),
      ((Orientation.H, x + 1, y) ∈ gs.walls ∨
        (Orientation.H, x - 1, y) ∈ gs.walls) →
      (is_valid_wall_placement gs x y Orientation.H).1 = false) ∧
    (∀ (gs : GameState) (x y : Int),
      ((Orientation.V, x, y + 1) ∈ gs.walls ∨
        (Orientation.V, x, y - 1) ∈ gs.walls) →
      (is_valid_wall_placement gs x y Orientation.V).1 = false) ∧
    (is_valid_wall_placement gsC2 4 3 Orientation.H).1 = false ∧
    (is_valid_wall_placement gsC2 3 5 Orientation.H).1 = true ∧
    (is_valid_wall_placement gsC2 3 4 Orientation.V).1 = true := by
  refine ⟨?_, ?_, by decide, by decide, by decide⟩
  · intro gs x y hadj
    unfold is_valid_wall_placement
    dsimp only
    split
    · rfl
    split
    · rfl
    rcases hadj with hadj | hadj <;> simp [hadj]
  · intro gs x y hadj
    unfold is_valid_wall_placement
    dsimp only
    split
    · rfl
    split
    · rfl
    rcases hadj with hadj | hadj <;> simp [hadj]

/-- Witness for C2 (amended): the adjacency rejection rule applied on the
fixture: the H wall at `(3, 3)` forces rejection of an H wall at `(4, 3)`. -/
theorem claim_C2_witness :
    (is_valid_wall_placement gsC2 4 3 Orientation.H).1 = false :=
  claim_C2_amended.1 gsC2 4 3 (Or.inr (by decide))

set_option maxRecDepth 400000 in
/-- Counterexample to C8: in a state where the AI (player 0, at `(4, 7)`,
goal row 8) has the winning valid move `(4, 8)`, the easy strategy with the
0.2-probability wall-branch outcome of `random.random()` returns a wall
placement, not the winning pawn move. -/
theorem claim_C8_counterexample :
    (4, 8) ∈ get_valid_moves gW.state 0 ∧
    (gW.state.player 0).goal_row = 8 ∧
    0 < (gW.state.player 0).walls_left ∧
    easy_strategy gW.state 0 false 0 =
      some (AIMove.wall (0, 0, Orientation.H)) := by
  refine ⟨by decide, by decide, by decide, ?_⟩
  decide

/-- C8 (amended): when the AI's pawn stands on a row adjacent to its goal
row and some valid move lands on the goal row, the easy strategy returns a
winning pawn move for every outcome of the internal random choices
*whenever its pawn branch is taken* (the 0.8 coin, or always when the AI
has no walls left): the `best_moves` list is non-empty by membership of the
winning move, every element of it lands on the goal row, and the returned
move is drawn from it.  (With walls remaining, the 0.2 wall branch returns
a wall placement instead, so the claim's guarantee for every random
outcome and every difficulty fails; see the counterexample.) -/
theorem claim_C8_amended (gs : GameState) (idx : Nat) (coin : Bool)
    (pick : Nat)
    (hbranch : coin = true ∨ (gs.player idx).walls_left = 0)
    (hrow : ((gs.player idx).pos.2 - (gs.player idx).goal_row).natAbs = 1)
    (hwin : ∃ m ∈ get_valid_moves gs idx,
      m.2 = (gs.player idx).goal_row) :
    easy_strategy gs idx coin pick =
      some (AIMove.pawn ((easy_best_moves gs idx).getD
        (pick % (easy_best_moves gs idx).length) (0, 0))) ∧
    ∀ m ∈ easy_best_moves gs idx, m.2 = (gs.player idx).goal_row := by
  obtain ⟨m, hm, hmy⟩ := hwin
  have hmem : m ∈ easy_best_moves gs idx := by
    unfold easy_best_moves
    refine List.mem_filter.mpr ⟨hm, ?_⟩
    rw [decide_eq_true_eq, hmy]
    simp [hrow]
  have hwinning : ∀ m' ∈ easy_best_moves gs idx,
      m'.2 = (gs.player idx).goal_row := by
    intro m' hm'
    unfold easy_best_moves at hm'
    have hp := (List.mem_filter.mp hm').2
    rw [decide_eq_true_eq, hrow] at hp
    omega
  have hcond : (coin || ((gs.player idx).walls_left == 0)) = true := by
    rcases hbranch with hb | hb <;> simp [hb]
  have hvne : ((get_valid_moves gs idx).isEmpty) ≠ true := by
    intro hempty
    rw [List.isEmpty_iff] at hempty
    exact List.ne_nil_of_mem hm hempty
  have hbne : ((easy_best_moves gs idx).isEmpty) ≠ true := by
    intro hempty
    rw [List.isEmpty_iff] at hempty
    exact List.ne_nil_of_mem hmem hempty
  refine ⟨?_, hwinning⟩
  unfold easy_strategy
  dsimp only
  rw [if_pos hcond, if_neg hvne, if_neg hbne]

/-- Witness for C8 (amended): on the concrete near-goal state, the easy
strategy's pawn branch returns the winning move `(4, 8)`. -/
theorem claim_C8_witness :
    easy_strategy gW.state 0 true 0 = some (AIMove.pawn (4, 8)) := by
  have h := claim_C8_amended gW.state 0 true 0 (Or.inl rfl) (by decide)
    ⟨(4, 8), by decide, by decide⟩
  exact h.1.trans (by decide)

/-! ### The jump and side-step rules (C3) -/

/-- A direction whose step cell does not hold the opponent contributes
either nothing or exactly the plain step cell. -/
lemma moveCandidates_of_ne (walls : List Wall) (p o d : Pos)
    (h : ((p.1 + d.1, p.2 + d.2) : Pos) ≠ o) :
    moveCandidates walls p o d = [] ∨
    moveCandidates walls p o d = [(p.1 + d.1, p.2 + d.2)] := by
  unfold moveCandidates
  dsimp only
  split
  · exact Or.inl rfl
  split
  · exact Or.inl rfl
  exact Or.inr rfl

lemma not_mem_moveCandidates_of_ne (walls : List Wall) (p o d z : Pos)
    (h : ((p.1 + d.1, p.2 + d.2) : Pos) ≠ o)
    (hz : z ≠ (p.1 + d.1, p.2 + d.2)) :
    z ∉ moveCandidates walls p o d := by
  rcases moveCandidates_of_ne walls p o d h with h1 | h1 <;> rw [h1] <;>
    simp [hz]

/-- The contribution of the direction occupied by the opponent: the straight
jump when it is on-board and unblocked from the opponent's cell, otherwise
the two perpendicular side-cells filtered by the on-board and
double-unblocked conditions. -/
lemma moveCandidates_of_eq (walls : List Wall) (p o d : Pos)
    (heq : ((p.1 + d.1, p.2 + d.2) : Pos) = o)
    (hob : is_on_board o.1 o.2 = true)
    (hnb : wall_blocks_move walls p o = false) :
    moveCandidates walls p o d =
      if is_on_board (o.1 + d.1) (o.2 + d.2) ∧
          ¬ wall_blocks_move walls o (o.1 + d.1, o.2 + d.2) then
        [(o.1 + d.1, o.2 + d.2)]
      else
        ([(o.1 + d.2, o.2 + d.1), (o.1 - d.2, o.2 - d.1)] : List Pos).filter
          fun s =>
            is_on_board s.1 s.2 ∧ ¬ wall_blocks_move walls o s ∧
              ¬ wall_blocks_move walls p s := by
  have h1 : p.1 + d.1 = o.1 := by rw [← heq]
  have h2 : p.2 + d.2 = o.2 := by rw [← heq]
  unfold moveCandidates
  dsimp only
  rw [heq, h1, h2]
  rw [if_neg (by simp [hob]), if_neg (by simp [hnb]), if_neg (by simp)]

/-- C3: with the two pawns orthogonally adjacent along direction `d` (and
the step towards the opponent on-board and not wall-blocked), the valid
moves replace that direction as follows: the straight-jump cell is a valid
move iff it is on-board and not wall-blocked from the opponent's cell; each
of the two perpendicular side-cells of the opponent is a valid move iff the
straight jump is unavailable and the side-cell is on-board and not
wall-blocked from both the opponent's cell and the mover's own cell; and
the opponent's own cell is never a valid move. -/
theorem claim_C3 (walls : List Wall) (p q d : Pos) (hd : d ∈ directions)
    (hadj : q = (p.1 + d.1, p.2 + d.2))
    (hob : is_on_board q.1 q.2 = true)
    (hnb : wall_blocks_move walls p q = false)
    (gs : GameState) (i : Nat)
    (hp : (gs.player i).pos = p)
    (hq : (gs.player (1 - i)).pos = q)
    (hw : gs.walls = walls) :
    ((q.1 + d.1, q.2 + d.2) ∈ get_valid_moves gs i ↔
      (is_on_board (q.1 + d.1) (q.2 + d.2) = true ∧
        ¬ wall_blocks_move walls q (q.1 + d.1, q.2 + d.2) = true)) ∧
    (∀ s ∈ ([(q.1 + d.2, q.2 + d.1), (q.1 - d.2, q.2 - d.1)] : List Pos),
      (s ∈ get_valid_moves gs i ↔
        (¬ (is_on_board (q.1 + d.1) (q.2 + d.2) = true ∧
            ¬ wall_blocks_move walls q (q.1 + d.1, q.2 + d.2) = true) ∧
          is_on_board s.1 s.2 = true ∧
          ¬ wall_blocks_move walls q s = true ∧
          ¬ wall_blocks_move walls p s = true))) ∧
    q ∉ get_valid_moves gs i := by
  have hq1 : q.1 = p.1 + d.1 := by rw [hadj]
  have hq2 : q.2 = p.2 + d.2 := by rw [hadj]
  have hfin1 : ∀ a ∈ directions, ∀ b ∈ directions,
      ¬ (a.1 + a.1 = b.1 ∧ a.2 + a.2 = b.2) := by decide
  have hfin2 : ∀ a ∈ directions, ∀ b ∈ directions,
      ¬ (a.1 + a.2 = b.1 ∧ a.2 + a.1 = b.2) := by decide
  have hfin3 : ∀ a ∈ directions, ∀ b ∈ directions,
      ¬ (a.1 - a.2 = b.1 ∧ a.2 - a.1 = b.2) := by decide
  have hfin4 : ∀ a ∈ directions, ¬ (a.1 = 0 ∧ a.2 = 0) := by decide
  have hfin5 : ∀ a ∈ directions, a.1 ≠ a.2 := by decide
  have hfin6 : ∀ a ∈ directions, a.1 + a.2 ≠ 0 := by decide
  have hunfold : get_valid_moves gs i =
      directions.flatMap (moveCandidates walls p q) := by
    unfold get_valid_moves
    dsimp only
    rw [hp, hq, hw]
  have hne_d : ∀ d' ∈ directions, d' ≠ d →
      ((p.1 + d'.1, p.2 + d'.2) : Pos) ≠ q := by
    intro d' _ hne hcontra
    apply hne
    rw [hadj, Prod.mk.injEq] at hcontra
    rw [Prod.ext_iff]
    constructor <;> omega
  have hmem_iff : ∀ z : Pos,
      (∀ d' ∈ directions, d' ≠ d → z ≠ (p.1 + d'.1, p.2 + d'.2)) →
      (z ∈ get_valid_moves gs i ↔ z ∈ moveCandidates walls p q d) := by
    intro z hz
    rw [hunfold, List.mem_flatMap]
    constructor
    · rintro ⟨a, ha, hmem⟩
      by_cases had : a = d
      · subst had
        exact hmem
      · exact absurd hmem
          (not_mem_moveCandidates_of_ne walls p q a z (hne_d a ha had)
            (hz a ha had))
    · intro hmem
      exact ⟨d, hd, hmem⟩
  have hcand := moveCandidates_of_eq walls p q d hadj.symm hob hnb
  refine ⟨?_, ?_, ?_⟩
  · have hexcl : ∀ d' ∈ directions, d' ≠ d →
        ((q.1 + d.1, q.2 + d.2) : Pos) ≠ (p.1 + d'.1, p.2 + d'.2) := by
      intro d' hd' hne hcontra
      rw [Prod.mk.injEq] at hcontra
      exact hfin1 d hd d' hd' ⟨by omega, by omega⟩
    rw [hmem_iff _ hexcl, hcand]
    split
    · next hC =>
      exact iff_of_true (List.mem_singleton_self _) hC
    · next hC =>
      apply iff_of_false
      · intro hmem'
        have hsub := List.mem_of_mem_filter hmem'
        simp only [List.mem_cons, List.mem_singleton, List.not_mem_nil,
          or_false] at hsub
        rcases hsub with h1 | h1 <;> rw [Prod.mk.injEq] at h1
        · exact hfin5 d hd (by omega)
        · exact hfin6 d hd (by omega)
      · exact hC
  · intro s hs
    have hs' : s = (q.1 + d.2, q.2 + d.1) ∨ s = (q.1 - d.2, q.2 - d.1) := by
      simpa using hs
    have hexcl : ∀ d' ∈ directions, d' ≠ d →
        s ≠ (p.1 + d'.1, p.2 + d'.2) := by
      intro d' hd' hne hcontra
      rcases hs' with h1 | h1 <;> rw [h1, Prod.mk.injEq] at hcontra
      · exact hfin2 d hd d' hd' ⟨by omega, by omega⟩
      · exact hfin3 d hd d' hd' ⟨by omega, by omega⟩
    rw [hmem_iff _ hexcl, hcand]
    split
    · next hC =>
      apply iff_of_false
      · intro hmem'
        rw [List.mem_singleton] at hmem'
        rcases hs' with h1 | h1 <;> rw [h1, Prod.mk.injEq] at hmem'
        · exact hfin5 d hd (by omega)
        · exact hfin6 d hd (by omega)
      · intro hRHS
        exact hRHS.1 hC
    · next hC =>
      simp only [List.mem_filter, decide_eq_true_eq]
      constructor
      · rintro ⟨-, hpred⟩
        exact ⟨hC, hpred⟩
      · rintro ⟨hnC, hpred⟩
        exact ⟨hs, hpred⟩
  · have hexcl : ∀ d' ∈ directions, d' ≠ d →
        q ≠ (p.1 + d'.1, p.2 + d'.2) :=
      fun d' h1 h2 => (hne_d d' h1 h2).symm
    rw [hmem_iff _ hexcl, hcand]
    split
    · next hC =>
      intro hmem'
      rw [List.mem_singleton] at hmem'
      have ha : q.1 = q.1 + d.1 := congrArg Prod.fst hmem'
      have hb : q.2 = q.2 + d.2 := congrArg Prod.snd hmem'
      exact hfin4 d hd ⟨by omega, by omega⟩
    · next hC =>
      intro hmem'
      have hsub := List.mem_of_mem_filter hmem'
      simp only [List.mem_cons, List.mem_singleton, List.not_mem_nil,
        or_false] at hsub
      rcases hsub with h1 | h1
      · have ha : q.1 = q.1 + d.2 := congrArg Prod.fst h1
        have hb : q.2 = q.2 + d.1 := congrArg Prod.snd h1
        exact hfin4 d hd ⟨by omega, by omega⟩
      · have ha : q.1 = q.1 - d.2 := congrArg Prod.fst h1
        have hb : q.2 = q.2 - d.1 := congrArg Prod.snd h1
        exact hfin4 d hd ⟨by omega, by omega⟩

/-! ### The wall ledger (C9) -/

/-- The ledger of one snapshot: each player's remaining wall count plus the
number of standing walls that player has placed equals 10. -/
def wall_ledger (gs : GameState) (c : Nat × Nat) : Prop :=
  gs.p0.walls_left + (c.1 : Int) = 10 ∧ gs.p1.walls_left + (c.2 : Int) = 10

/-- Record one more wall placed by player `i`. -/
def bump (c : Nat × Nat) (i : Nat) : Nat × Nat :=
  if i = 0 then (c.1 + 1, c.2) else (c.1, c.2 + 1)

/-- Reachable games with ghost placement counts: `c` counts the standing
walls placed by each player in the current state, and `u`/`r` carry the
counts belonging to each snapshot on the undo/redo stacks.  Every sequence
of API calls starting from `Game.init` is covered: each step constructor
matches one outcome (accepted, rejected, or rejected because the game is
over) of one operation. -/
inductive Traced :
    Game → (Nat × Nat) → List (Nat × Nat) → List (Nat × Nat) → Prop where
  | init : Traced Game.init (0, 0) [] []
  | move_ok (g : Game) (c : Nat × Nat) (u r : List (Nat × Nat)) (pos : Pos) :
      Traced g c u r → (Game.move_pawn g pos).1 = true →
      Traced (Game.move_pawn g pos).2 c (u ++ [c]) []
  | move_fail (g : Game) (c : Nat × Nat) (u r : List (Nat × Nat)) (pos : Pos) :
      Traced g c u r → g.winner = none → (Game.move_pawn g pos).1 = false →
      Traced (Game.move_pawn g pos).2 c u []
  | move_over (g : Game) (c : Nat × Nat) (u r : List (Nat × Nat)) (pos : Pos)
      (w : Nat) :
      Traced g c u r → g.winner = some w →
      Traced (Game.move_pawn g pos).2 c u r
  | wall_ok (g : Game) (c : Nat × Nat) (u r : List (Nat × Nat)) (x y : Int)
      (o : Orientation) :
      Traced g c u r → (Game.place_wall g x y o).1 = true →
      Traced (Game.place_wall g x y o).2 (bump c g.state.current_player)
        (u ++ [c]) []
  | wall_fail (g : Game) (c : Nat × Nat) (u r : List (Nat × Nat)) (x y : Int)
      (o : Orientation) :
      Traced g c u r → g.winner = none → (Game.place_wall g x y o).1 = false →
      Traced (Game.place_wall g x y o).2 c u []
  | wall_over (g : Game) (c : Nat × Nat) (u r : List (Nat × Nat)) (x y : Int)
      (o : Orientation) (w : Nat) :
      Traced g c u r → g.winner = some w →
      Traced (Game.place_wall g x y o).2 c u r
  | undo_ok (g : Game) (c : Nat × Nat) (u r : List (Nat × Nat))
      (c' : Nat × Nat) :
      Traced g c u r → u.getLast? = some c' →
      Traced (Game.undo g).2 c' u.dropLast (r ++ [c])
  | undo_fail (g : Game) (c : Nat × Nat) (u r : List (Nat × Nat)) :
      Traced g c u r → u = [] →
      Traced (Game.undo g).2 c u r
  | redo_ok (g : Game) (c : Nat × Nat) (u r : List (Nat × Nat))
      (c' : Nat × Nat) :
      Traced g c u r → r.getLast? = some c' →
      Traced (Game.redo g).2 c' (u ++ [c]) r.dropLast
  | redo_fail (g : Game) (c : Nat × Nat) (u r : List (Nat × Nat)) :
      Traced g c u r → r = [] →
      Traced (Game.redo g).2 c u r

lemma forall₂_concat_iff {R : GameState → Nat × Nat → Prop} :
    ∀ {l₁ : List GameState} {l₂ : List (Nat × Nat)} {a : GameState}
      {b : Nat × Nat},
    List.Forall₂ R (l₁ ++ [a]) (l₂ ++ [b]) ↔ List.Forall₂ R l₁ l₂ ∧ R a b := by
  intro l₁
  induction l₁ with
  | nil =>
    intro l₂ a b
    cases l₂ with
    | nil => simp
    | cons y ys => simp [List.forall₂_cons]
  | cons x xs ih =>
    intro l₂ a b
    cases l₂ with
    | nil => simp [List.forall₂_cons]
    | cons y ys =>
      simp only [List.cons_append, List.forall₂_cons, ih, and_assoc]

lemma make_move_walls_left (gs : GameState) (pos : Pos) :
    (make_move gs pos).2.p0.walls_left = gs.p0.walls_left ∧
    (make_move gs pos).2.p1.walls_left = gs.p1.walls_left := by
  unfold make_move
  dsimp only
  split
  · constructor <;>
      by_cases hc : gs.current_player = 0 <;>
        simp [GameState.setPlayer, GameState.player, hc]
  · exact ⟨rfl, rfl⟩

lemma traced_ledger_invariant (g : Game) (c : Nat × Nat)
    (u r : List (Nat × Nat)) (h : Traced g c u r) :
    wall_ledger g.state c ∧
    List.Forall₂ wall_ledger g.history.undo_stack u ∧
    List.Forall₂ wall_ledger g.history.redo_stack r := by
  induction h with
  | init =>
    exact ⟨⟨by decide, by decide⟩, List.Forall₂.nil, List.Forall₂.nil⟩
  | move_ok g c u r pos htr hsucc ih =>
    obtain ⟨hw, hmk, hshape⟩ := game_move_pawn_true g pos hsucc
    obtain ⟨hl, hu, hr⟩ := ih
    obtain ⟨hml0, hml1⟩ := make_move_walls_left g.state pos
    rw [hshape]
    refine ⟨?_, forall₂_concat_iff.mpr ⟨hu, hl⟩, List.Forall₂.nil⟩
    obtain ⟨hl0, hl1⟩ := hl
    exact ⟨by rw [hml0]; exact hl0, by rw [hml1]; exact hl1⟩
  | move_fail g c u r pos htr hwin hfail ih =>
    obtain ⟨hshape, -⟩ := game_move_pawn_false g pos hwin hfail
    obtain ⟨hl, hu, hr⟩ := ih
    rw [hshape]
    exact ⟨hl, hu, List.Forall₂.nil⟩
  | move_over g c u r pos w htr hwin ih =>
    rw [game_move_pawn_over g pos w hwin]
    exact ih
  | wall_ok g c u r x y o htr hsucc ih =>
    obtain ⟨hw, hs, hshape⟩ := game_place_wall_true g x y o hsucc
    obtain ⟨hwalls, hcur, hp0pos, hp0goal, hp1pos, hp1goal, hp0w, hp1w, hv⟩ :=
      place_wall_true_fields g.state x y o hs
    obtain ⟨hl, hu, hr⟩ := ih
    obtain ⟨hl0, hl1⟩ := hl
    rw [hshape]
    refine ⟨?_, forall₂_concat_iff.mpr ⟨hu, ⟨hl0, hl1⟩⟩, List.Forall₂.nil⟩
    unfold wall_ledger bump
    by_cases hc : g.state.current_player = 0 <;>
      simp only [hc, if_pos, if_neg, if_true, if_false] at hp0w hp1w ⊢ <;>
        rw [hp0w, hp1w] <;>
          constructor <;> push_cast <;> omega
  | wall_fail g c u r x y o htr hwin hfail ih =>
    have hshape := game_place_wall_false g x y o hwin hfail
    obtain ⟨hl, hu, hr⟩ := ih
    rw [hshape]
    exact ⟨hl, hu, List.Forall₂.nil⟩
  | wall_over g c u r x y o w htr hwin ih =>
    rw [game_place_wall_over g x y o w hwin]
    exact ih
  | undo_ok g c u r c' htr hlast ih =>
    obtain ⟨hl, hu, hr⟩ := ih
    have hne : u ≠ [] := by
      intro h0
      rw [h0] at hlast
      simp at hlast
    have hc' : u.getLast hne = c' := by
      rw [List.getLast?_eq_getLast u hne] at hlast
      exact Option.some.inj hlast
    have hu_eq : u = u.dropLast ++ [c'] := by
      rw [← hc']
      exact (List.dropLast_concat_getLast hne).symm
    have hlen := List.Forall₂.length_eq hu
    have hne₂ : g.history.undo_stack ≠ [] := by
      intro h0
      rw [h0] at hlen
      exact hne (List.length_eq_zero.mp hlen.symm)
    have hstack : g.history.undo_stack =
        g.history.undo_stack.dropLast ++ [g.history.undo_stack.getLast hne₂] :=
      (List.dropLast_concat_getLast hne₂).symm
    have hu2 : List.Forall₂ wall_ledger
        (g.history.undo_stack.dropLast ++ [g.history.undo_stack.getLast hne₂])
        (u.dropLast ++ [c']) := by
      rw [← hstack, ← hu_eq]
      exact hu
    obtain ⟨hu', hRlast⟩ := forall₂_concat_iff.mp hu2
    rw [game_undo_concat g _ _ hstack]
    exact ⟨hRlast, hu', forall₂_concat_iff.mpr ⟨hr, hl⟩⟩
  | undo_fail g c u r htr hunil ih =>
    obtain ⟨hl, hu, hr⟩ := ih
    have hlen := List.Forall₂.length_eq hu
    rw [hunil] at hlen
    have hnil : g.history.undo_stack = [] := List.length_eq_zero.mp hlen
    rw [game_undo_empty g hnil]
    exact ⟨hl, hu, hr⟩
  | redo_ok g c u r c' htr hlast ih =>
    obtain ⟨hl, hu, hr⟩ := ih
    have hne : r ≠ [] := by
      intro h0
      rw [h0] at hlast
      simp at hlast
    have hc' : r.getLast hne = c' := by
      rw [List.getLast?_eq_getLast r hne] at hlast
      exact Option.some.inj hlast
    have hr_eq : r = r.dropLast ++ [c'] := by
      rw [← hc']
      exact (List.dropLast_concat_getLast hne).symm
    have hlen := List.Forall₂.length_eq hr
    have hne₂ : g.history.redo_stack ≠ [] := by
      intro h0
      rw [h0] at hlen
      exact hne (List.length_eq_zero.mp hlen.symm)
    have hstack : g.history.redo_stack =
        g.history.redo_stack.dropLast ++ [g.history.redo_stack.getLast hne₂] :=
      (List.dropLast_concat_getLast hne₂).symm
    have hr2 : List.Forall₂ wall_ledger
        (g.history.redo_stack.dropLast ++ [g.history.redo_stack.getLast hne₂])
        (r.dropLast ++ [c']) := by
      rw [← hstack, ← hr_eq]
      exact hr
    obtain ⟨hr', hRlast⟩ := forall₂_concat_iff.mp hr2
    rw [game_redo_concat g _ _ hstack]
    exact ⟨hRlast, forall₂_concat_iff.mpr ⟨hu, hl⟩, hr'⟩
  | redo_fail g c u r htr hrnil ih =>
    obtain ⟨hl, hu, hr⟩ := ih
    have hlen := List.Forall₂.length_eq hr
    rw [hrnil] at hlen
    have hnil : g.history.redo_stack = [] := List.length_eq_zero.mp hlen
    rw [game_redo_empty g hnil]
    exact ⟨hl, hu, hr⟩

/-- C9: for every reachable game (with the standing-wall counts of the
trace as ghost state) and both players, the remaining wall count plus the
number of standing walls placed by that player equals 10: the count starts
at 10, an accepted placement by the current player decrements exactly that
player's count as the ghost count increments, undo restores the snapshot's
ledger, and nothing else changes either side of the equation. -/
theorem claim_C9 (g : Game) (c : Nat × Nat) (u r : List (Nat × Nat))
    (h : Traced g c u r) :
    g.state.p0.walls_left + (c.1 : Int) = 10 ∧
    g.state.p1.walls_left + (c.2 : Int) = 10 :=
  (traced_ledger_invariant g c u r h).1

set_option maxRecDepth 1000000 in
/-- Witness for C9: after the accepted wall placement at `(0, 0)` by player
0 from the initial game, player 0 has 9 walls left and one standing wall,
player 1 has 10 and none. -/
theorem claim_C9_witness :
    (Game.place_wall Game.init 0 0 Orientation.H).2.state.p0.walls_left +
      ((1 : Nat) : Int) = 10 ∧
    (Game.place_wall Game.init 0 0 Orientation.H).2.state.p1.walls_left +
      ((0 : Nat) : Int) = 10 :=
  claim_C9 _ (bump (0, 0) Game.init.state.current_player) ([] ++ [(0, 0)]) []
    (Traced.wall_ok Game.init (0, 0) [] [] 0 0 Orientation.H Traced.init
      (by decide))

/-- The straight-jump fixture: pawns adjacent on a column, no walls. -/
def gsC3 : GameState :=
  { p0 := { pos := (4, 4), goal_row := 8, walls_left := 10 }
    p1 := { pos := (4, 5), goal_row := 0, walls_left := 10 }
    walls := []
    current_player := 0 }

/-- Witness for C3: with adjacent pawns and no wall behind the opponent,
the straight jump `(4, 6)` is a valid move for the mover. -/
theorem claim_C3_witness : ((4 : Int), (6 : Int)) ∈ get_valid_moves gsC3 0 := by
  have h := (claim_C3 [] (4, 4) (4, 5) (0, 1) (by decide) (by decide)
    (by decide) (by decide) gsC3 0 (by decide) (by decide) rfl).1.mpr
    ⟨by decide, by decide⟩
  simpa using h

end Quoridor
